import Mathlib

set_option maxRecDepth 100000

/-!
Verification development for the column-inspection logging tool
(`mejorado_cloude.py`): a single-file form application with per-user
project records, a JSON flat-file store, base64-encoded photos,
ISO-8601-encoded review dates, SHA-256 password hashing, per-item
edit history, and floor-grouped archive display.

The Python program is shallowly embedded:

* dates are a `Date` structure (the in-memory `datetime.date` values);
  `toIso` / `parseIso` model `date.isoformat()` /
  `datetime.datetime.fromisoformat(...).date()` on the `YYYY-MM-DD`
  strings the program itself writes (Python dates always satisfy
  `Date.Valid`: the `datetime.date` constructor enforces the ranges);
* photo blobs are `List Nat` byte lists; `b64encodePy` / `pyB64Decode`
  model `base64.b64encode(...).decode('utf-8')` and `base64.b64decode`
  (alphabet filtering, 4-character groups, `=` padding at the end;
  the model rejects padding in the middle of the input, where CPython's
  lenient decoder sometimes stops early instead);
* the store is a key-ordered association list (a Python `dict`);
* `json.dump`/`json.load` are treated as the identity on the structured
  document: `guardar_proyectos` produces the JSON document as a value
  (`none` when `json.dump` raises `TypeError` on a leftover non-JSON
  value, which happens exactly when an empty `bytes` photo slips past
  the truthiness checks), and `cargar_proyectos` consumes the outcome
  of `open` + `json.load` as an `Except` value (`Except.error` covers
  a missing file and any raised exception, both of which the source
  turns into the empty store);
* `hashlib.sha256(...).hexdigest()` is a full executable SHA-256 over
  the UTF-8 bytes of the password.
-/

/-! ## Dates and ISO-8601 strings -/

/-- In-memory review date: a Python `datetime.date`. -/
structure Date where
  year : Nat
  month : Nat
  day : Nat
deriving DecidableEq, Repr

/-- `True` iff the year is a leap year (Python `calendar.isleap`,
as used by `datetime.date` day-range validation). -/
def bisiesto (y : Nat) : Bool :=
  y % 4 = 0 && (y % 100 ≠ 0 || y % 400 = 0)

/-- Number of days of a month, as enforced by the `datetime.date`
constructor. -/
def diasMes (y m : Nat) : Nat :=
  if m = 2 then (if bisiesto y then 29 else 28)
  else if m = 4 || m = 6 || m = 9 || m = 11 then 30
  else 31

/-- The invariant every Python `datetime.date` satisfies by
construction (`datetime.MINYEAR = 1`, `datetime.MAXYEAR = 9999`). -/
def Date.Valid (d : Date) : Prop :=
  1 ≤ d.year ∧ d.year ≤ 9999 ∧ 1 ≤ d.month ∧ d.month ≤ 12 ∧
    1 ≤ d.day ∧ d.day ≤ diasMes d.year d.month

instance (d : Date) : Decidable d.Valid := by
  unfold Date.Valid; infer_instance

/-- Decimal digit character. -/
def digitChar (n : Nat) : Char := Char.ofNat (48 + n)

/-- `date.isoformat()`: zero-padded `YYYY-MM-DD`. -/
def toIso (d : Date) : String :=
  ⟨[digitChar (d.year / 1000 % 10), digitChar (d.year / 100 % 10),
    digitChar (d.year / 10 % 10), digitChar (d.year % 10),
    Char.ofNat 45,
    digitChar (d.month / 10 % 10), digitChar (d.month % 10),
    Char.ofNat 45,
    digitChar (d.day / 10 % 10), digitChar (d.day % 10)]⟩

/-- Is the character a decimal digit? -/
def esDigito (c : Char) : Bool := 48 ≤ c.toNat && c.toNat ≤ 57

/-- Numeric value of a digit character. -/
def valorDigito (c : Char) : Nat := c.toNat - 48

/-- `datetime.datetime.fromisoformat(s).date()` restricted to the
`YYYY-MM-DD` date strings the program writes; any other string is a
parse failure (`none`).  Range checks mirror the `datetime.date`
constructor invoked by the parser. -/
def parseIso (s : String) : Option Date :=
  match s.data with
  | [y1, y2, y3, y4, g1, m1, m2, g2, d1, d2] =>
    if esDigito y1 && esDigito y2 && esDigito y3 && esDigito y4 &&
        g1 == Char.ofNat 45 && esDigito m1 && esDigito m2 &&
        g2 == Char.ofNat 45 && esDigito d1 && esDigito d2 then
      let y := valorDigito y1 * 1000 + valorDigito y2 * 100 +
        valorDigito y3 * 10 + valorDigito y4
      let mo := valorDigito m1 * 10 + valorDigito m2
      let da := valorDigito d1 * 10 + valorDigito d2
      if 1 ≤ y && 1 ≤ mo && mo ≤ 12 && 1 ≤ da && da ≤ diasMes y mo then
        some ⟨y, mo, da⟩
      else none
    else none
  | _ => none

/-! ## Base64 (`base64.b64encode` / `base64.b64decode`) -/

/-- Padding character `=`. -/
def padChar : Char := Char.ofNat 61

/-- Character of a 6-bit group, standard base64 alphabet. -/
def b64char (n : Nat) : Char :=
  Char.ofNat
    (if n < 26 then 65 + n
     else if n < 52 then 71 + n
     else if n < 62 then n - 4
     else if n = 62 then 43
     else 47)

/-- 6-bit value of an alphabet character (`none` outside the alphabet). -/
def b64index (c : Char) : Option Nat :=
  if 65 ≤ c.toNat && c.toNat ≤ 90 then some (c.toNat - 65)
  else if 97 ≤ c.toNat && c.toNat ≤ 122 then some (c.toNat - 71)
  else if 48 ≤ c.toNat && c.toNat ≤ 57 then some (c.toNat + 4)
  else if c.toNat = 43 then some 62
  else if c.toNat = 47 then some 63
  else none

/-- `base64.b64encode`: three bytes to four characters, `=`-padded. -/
def b64encodeChars : List Nat → List Char
  | [] => []
  | [b1] => [b64char (b1 / 4), b64char (b1 % 4 * 16), padChar, padChar]
  | [b1, b2] =>
    [b64char (b1 / 4), b64char (b1 % 4 * 16 + b2 / 16),
     b64char (b2 % 16 * 4), padChar]
  | b1 :: b2 :: b3 :: rest =>
    b64char (b1 / 4) :: b64char (b1 % 4 * 16 + b2 / 16) ::
      b64char (b2 % 16 * 4 + b3 / 64) :: b64char (b3 % 64) ::
        b64encodeChars rest

/-- `base64.b64encode(b).decode('utf-8')`: the textual form stored in
the JSON file. -/
def b64encodePy (l : List Nat) : String := ⟨b64encodeChars l⟩

/-- Decode groups of four characters; `=` padding is accepted only at
the very end (CPython's lenient `binascii.a2b_base64` occasionally
stops early at interior padding instead of failing; the program never
produces such strings).  A leftover group of 1-3 characters is the
`binascii.Error: Invalid padding` case, i.e. `none`. -/
def b64decodeChars : List Char → Option (List Nat)
  | [] => some []
  | c1 :: c2 :: c3 :: c4 :: rest =>
    match b64index c1, b64index c2 with
    | some s1, some s2 =>
      if c3 = padChar ∧ c4 = padChar ∧ rest = [] then
        some [s1 * 4 + s2 / 16]
      else if c4 = padChar ∧ rest = [] then
        match b64index c3 with
        | some s3 => some [s1 * 4 + s2 / 16, s2 % 16 * 16 + s3 / 4]
        | none => none
      else
        match b64index c3, b64index c4 with
        | some s3, some s4 =>
          (b64decodeChars rest).map
            (fun bs => (s1 * 4 + s2 / 16) :: (s2 % 16 * 16 + s3 / 4) ::
              (s3 % 4 * 64 + s4) :: bs)
        | _, _ => none
    | _, _ => none
  | _ => none

/-- `base64.b64decode(s)` with `validate=False` (the call the source
makes): characters outside the alphabet (other than `=`) are discarded
before decoding. -/
def pyB64Decode (s : String) : Option (List Nat) :=
  b64decodeChars (s.data.filter (fun c => (b64index c).isSome || c == padChar))

/-! ## Record model

In-memory (`PhotoM`) photo values: `None`, raw `bytes`, or a leftover
`str` (a string photo is left as a string by `cargar_proyectos` when it
is empty, and can survive in the session unchanged).  On-disk (`PhotoD`)
photo values: JSON `null` or a JSON string. -/

inductive PhotoM where
  | null : PhotoM
  | bytes (b : List Nat) : PhotoM
  | str (s : String) : PhotoM
deriving DecidableEq, Repr

inductive PhotoD where
  | null : PhotoD
  | str (s : String) : PhotoD
deriving DecidableEq, Repr

/-- One in-memory review record (`nueva_revision` in the source):
column name, floor label, review date, general observations, history
list, the six `cumple_*` pass/fail strings (`'Cumple'`/`'No cumple'`),
the six `obs_*` fail-observation strings, and an optional photo. -/
structure RevMem where
  nombre : String
  piso : String
  fecha_revision : Date
  observaciones : String
  historial : List String
  cumple_estribos : String
  cumple_longitudinal : String
  cumple_recubrimiento : String
  cumple_posicion : String
  cumple_ejes : String
  cumple_traslapo : String
  obs_estribos : String
  obs_longitudinal : String
  obs_recubrimiento : String
  obs_posicion : String
  obs_ejes : String
  obs_traslapo : String
  foto : PhotoM
deriving DecidableEq, Repr

/-- The on-disk (JSON document) form of a review record. -/
structure RevDisk where
  nombre : String
  piso : String
  fecha_revision : String
  observaciones : String
  historial : List String
  cumple_estribos : String
  cumple_longitudinal : String
  cumple_recubrimiento : String
  cumple_posicion : String
  cumple_ejes : String
  cumple_traslapo : String
  obs_estribos : String
  obs_longitudinal : String
  obs_recubrimiento : String
  obs_posicion : String
  obs_ejes : String
  obs_traslapo : String
  foto : PhotoD
deriving DecidableEq, Repr

/-- One in-memory project/user record (`proyectos[usuario]`). -/
structure UserMem where
  contrasena : String
  correo : String
  nombre_proyecto : String
  pisos : Nat
  tiene_sotanos : Bool
  num_sotanos : Nat
  foto_perfil : PhotoM
  revisiones : List RevMem
deriving DecidableEq, Repr

/-- The on-disk (JSON document) form of a project/user record. -/
structure UserDisk where
  contrasena : String
  correo : String
  nombre_proyecto : String
  pisos : Nat
  tiene_sotanos : Bool
  num_sotanos : Nat
  foto_perfil : PhotoD
  revisiones : List RevDisk
deriving DecidableEq, Repr

/-- The whole store: a username-keyed mapping (Python `dict`,
modelled as an insertion-ordered association list). -/
abbrev StoreMem : Type := List (String × UserMem)

abbrev StoreDisk : Type := List (String × UserDisk)

/-! ## `cargar_proyectos` -/

/-- Photo decoding inside `cargar_proyectos`: a truthy (non-empty)
string is `base64.b64decode`d, falling back to `None` on failure; a
falsy value (`null` or the empty string) is left untouched. -/
def cargarFoto : PhotoD → PhotoM
  | PhotoD.null => PhotoM.null
  | PhotoD.str s =>
    if s = "" then PhotoM.str ""
    else
      match pyB64Decode s with
      | some b => PhotoM.bytes b
      | none => PhotoM.null

/-- Per-review conversion inside `cargar_proyectos`: the ISO date
string becomes a `Date` (falling back to `datetime.date.today()` when
`fromisoformat` raises), and the photo is decoded. -/
def cargarRevision (today : Date) (r : RevDisk) : RevMem :=
  ⟨r.nombre, r.piso,
    (match parseIso r.fecha_revision with
     | some d => d
     | none => today),
    r.observaciones, r.historial,
    r.cumple_estribos, r.cumple_longitudinal, r.cumple_recubrimiento,
    r.cumple_posicion, r.cumple_ejes, r.cumple_traslapo,
    r.obs_estribos, r.obs_longitudinal, r.obs_recubrimiento,
    r.obs_posicion, r.obs_ejes, r.obs_traslapo,
    cargarFoto r.foto⟩

/-- Per-user conversion inside `cargar_proyectos`. -/
def cargarInfo (today : Date) (info : UserDisk) : UserMem :=
  ⟨info.contrasena, info.correo, info.nombre_proyecto, info.pisos,
    info.tiene_sotanos, info.num_sotanos,
    cargarFoto info.foto_perfil,
    info.revisiones.map (cargarRevision today)⟩

/-- `cargar_proyectos`.  The argument is the outcome of
`open(RUTA_PROYECTOS)` + `json.load`: `Except.error` stands for a
missing file or any raised exception (either returns the empty store;
an exception additionally shows `st.error`, with no distinct error
kind in the returned value), `Except.ok` is the parsed JSON document.
`today` is the ambient `datetime.date.today()`. -/
def cargar_proyectos (contenido : Except String StoreDisk) (today : Date) :
    StoreMem :=
  match contenido with
  | Except.error _ => []
  | Except.ok data => data.map (fun ui => (ui.1, cargarInfo today ui.2))

/-! ## `guardar_proyectos` -/

/-- Profile-photo encoding in `guardar_proyectos`: truthy `bytes` are
base64-encoded to text; `None` and the empty string are falsy and left
untouched; a truthy non-`bytes` value is left untouched.  Empty
`bytes` are falsy, stay `bytes`, and later make `json.dump` raise
`TypeError` (modelled as `none`: the save returns `False`). -/
def guardarFotoPerfil : PhotoM → Option PhotoD
  | PhotoM.null => some PhotoD.null
  | PhotoM.bytes b =>
    if b.isEmpty then none else some (PhotoD.str (b64encodePy b))
  | PhotoM.str s => some (PhotoD.str s)

/-- Review-photo encoding in `guardar_proyectos`: truthy `bytes` are
base64-encoded; any other truthy value is replaced by `None` (the
`else` branch); falsy values (`None`, empty string) are left
untouched, except empty `bytes`, which stay `bytes` and make
`json.dump` raise (`none`). -/
def guardarFotoRev : PhotoM → Option PhotoD
  | PhotoM.null => some PhotoD.null
  | PhotoM.bytes b =>
    if b.isEmpty then none else some (PhotoD.str (b64encodePy b))
  | PhotoM.str s =>
    if s = "" then some (PhotoD.str "") else some PhotoD.null

/-- Per-review serialization (`rev_copy`): the date value becomes its
`isoformat()` string, the photo is encoded. -/
def guardarRevision (r : RevMem) : Option RevDisk :=
  match guardarFotoRev r.foto with
  | none => none
  | some fd =>
    some ⟨r.nombre, r.piso, toIso r.fecha_revision, r.observaciones,
      r.historial,
      r.cumple_estribos, r.cumple_longitudinal, r.cumple_recubrimiento,
      r.cumple_posicion, r.cumple_ejes, r.cumple_traslapo,
      r.obs_estribos, r.obs_longitudinal, r.obs_recubrimiento,
      r.obs_posicion, r.obs_ejes, r.obs_traslapo, fd⟩

/-- `revisiones_procesadas`: serialize each review in order. -/
def guardarRevisiones : List RevMem → Option (List RevDisk)
  | [] => some []
  | r :: rs =>
    match guardarRevision r, guardarRevisiones rs with
    | some rd, some rds => some (rd :: rds)
    | _, _ => none

/-- Per-user serialization (`user_data`). -/
def guardarInfo (info : UserMem) : Option UserDisk :=
  match guardarFotoPerfil info.foto_perfil, guardarRevisiones info.revisiones with
  | some fd, some rds =>
    some ⟨info.contrasena, info.correo, info.nombre_proyecto, info.pisos,
      info.tiene_sotanos, info.num_sotanos, fd, rds⟩
  | _, _ => none

/-- `guardar_proyectos`: build `data_to_save` and `json.dump` it.
`some d` is the JSON document written to the file (the function
returns `True`); `none` is the raising case (the function shows
`st.error` and returns `False`). -/
def guardar_proyectos : StoreMem → Option StoreDisk
  | [] => some []
  | (u, info) :: rest =>
    match guardarInfo info, guardar_proyectos rest with
    | some di, some ds => some ((u, di) :: ds)
    | _, _ => none

/-! ## Well-formedness of in-memory and on-disk stores -/

/-- "Photos as raw bytes": the photo field is absent (`None`) or a
Python `bytes` value (every element `< 256`). -/
def FotoBytes : PhotoM → Prop
  | PhotoM.null => True
  | PhotoM.bytes b => ∀ x ∈ b, x < 256
  | PhotoM.str _ => False

/-- As `FotoBytes`, and additionally non-empty (a truthy photo). -/
def FotoBytesNoVacia : PhotoM → Prop
  | PhotoM.null => True
  | PhotoM.bytes b => b ≠ [] ∧ ∀ x ∈ b, x < 256
  | PhotoM.str _ => False

instance (p : PhotoM) : Decidable (FotoBytes p) := by
  cases p <;> simp only [FotoBytes] <;> infer_instance

instance (p : PhotoM) : Decidable (FotoBytesNoVacia p) := by
  cases p <;> simp only [FotoBytesNoVacia] <;> infer_instance

/-- In-memory review in the §3 representation: photo absent or
non-empty raw bytes, review date an actual date value. -/
def RevWF (r : RevMem) : Prop :=
  FotoBytesNoVacia r.foto ∧ r.fecha_revision.Valid

/-- As `RevWF` but allowing an empty `bytes` photo. -/
def RevWFDebil (r : RevMem) : Prop :=
  FotoBytes r.foto ∧ r.fecha_revision.Valid

def UserWF (u : UserMem) : Prop :=
  FotoBytesNoVacia u.foto_perfil ∧ ∀ r ∈ u.revisiones, RevWF r

def UserWFDebil (u : UserMem) : Prop :=
  FotoBytes u.foto_perfil ∧ ∀ r ∈ u.revisiones, RevWFDebil r

/-- In-memory store in the representation of §3 of the specification:
every photo is absent or (non-empty) raw bytes and every review date
is a date value. -/
def StoreWF (s : StoreMem) : Prop := ∀ p ∈ s, UserWF p.2

def StoreWFDebil (s : StoreMem) : Prop := ∀ p ∈ s, UserWFDebil p.2

instance (r : RevMem) : Decidable (RevWF r) := by
  unfold RevWF; infer_instance

instance (r : RevMem) : Decidable (RevWFDebil r) := by
  unfold RevWFDebil; infer_instance

instance (u : UserMem) : Decidable (UserWF u) := by
  unfold UserWF; infer_instance

instance (u : UserMem) : Decidable (UserWFDebil u) := by
  unfold UserWFDebil; infer_instance

instance (s : StoreMem) : Decidable (StoreWF s) := by
  unfold StoreWF; exact List.decidableBAll _ s

instance (s : StoreMem) : Decidable (StoreWFDebil s) := by
  unfold StoreWFDebil; exact List.decidableBAll _ s

/-- Persistence invariant of the written file, photo part: a photo
field is JSON `null` or a base64-decodable text string. -/
def FotoDiskOk : PhotoD → Prop
  | PhotoD.null => True
  | PhotoD.str s => (pyB64Decode s).isSome = true

/-- Persistence invariant of the written file: photos `null` or
base64 text, review dates ISO-8601 strings. -/
def StoreDiskOk (d : StoreDisk) : Prop :=
  ∀ p ∈ d, FotoDiskOk p.2.foto_perfil ∧
    ∀ r ∈ p.2.revisiones, FotoDiskOk r.foto ∧ (parseIso r.fecha_revision).isSome = true

/-! ## SHA-256 (`hashlib.sha256(...).hexdigest()`)

Words are `Nat` reduced mod `2 ^ 32` (written `4294967296`) at every
operation that can overflow. -/

def add32 (a b : Nat) : Nat := (a + b) % 4294967296

def rotr32 (n x : Nat) : Nat :=
  (x / 2 ^ n + x % 2 ^ n * 2 ^ (32 - n)) % 4294967296

def shr32 (n x : Nat) : Nat := x / 2 ^ n

def shaCh (x y z : Nat) : Nat := (x &&& y) ^^^ ((x ^^^ 4294967295) &&& z)

def shaMaj (x y z : Nat) : Nat := (x &&& y) ^^^ (x &&& z) ^^^ (y &&& z)

def shaS0 (x : Nat) : Nat := rotr32 2 x ^^^ rotr32 13 x ^^^ rotr32 22 x

def shaS1 (x : Nat) : Nat := rotr32 6 x ^^^ rotr32 11 x ^^^ rotr32 25 x

def shaG0 (x : Nat) : Nat := rotr32 7 x ^^^ rotr32 18 x ^^^ shr32 3 x

def shaG1 (x : Nat) : Nat := rotr32 17 x ^^^ rotr32 19 x ^^^ shr32 10 x

/-- The 64 round constants. -/
def K256 : List Nat :=
  [1116352408, 1899447441, 3049323471, 3921009573,
   961987163, 1508970993, 2453635748, 2870763221,
   3624381080, 310598401, 607225278, 1426881987,
   1925078388, 2162078206, 2614888103, 3248222580,
   3835390401, 4022224774, 264347078, 604807628,
   770255983, 1249150122, 1555081692, 1996064986,
   2554220882, 2821834349, 2952996808, 3210313671,
   3336571891, 3584528711, 113926993, 338241895,
   666307205, 773529912, 1294757372, 1396182291,
   1695183700, 1986661051, 2177026350, 2456956037,
   2730485921, 2820302411, 3259730800, 3345764771,
   3516065817, 3600352804, 4094571909, 275423344,
   430227734, 506948616, 659060556, 883997877,
   958139571, 1322822218, 1537002063, 1747873779,
   1955562222, 2024104815, 2227730452, 2361852424,
   2428436474, 2756734187, 3204031479, 3329325298]

/-- The initial hash value. -/
def H256 : List Nat :=
  [1779033703, 3144134277, 1013904242, 2773480762,
   1359893119, 2600822924, 528734635, 1541459225]

/-- Message padding: `0x80`, zeros to 56 mod 64, 8-byte big-endian
bit length. -/
def shaPad (msg : List Nat) : List Nat :=
  msg ++ 128 :: List.replicate ((119 - msg.length % 64) % 64) 0 ++
    [8 * msg.length / 2 ^ 56 % 256, 8 * msg.length / 2 ^ 48 % 256,
     8 * msg.length / 2 ^ 40 % 256, 8 * msg.length / 2 ^ 32 % 256,
     8 * msg.length / 2 ^ 24 % 256, 8 * msg.length / 2 ^ 16 % 256,
     8 * msg.length / 2 ^ 8 % 256, 8 * msg.length % 256]

/-- Big-endian 32-bit words of a block. -/
def palabras : List Nat → List Nat
  | b0 :: b1 :: b2 :: b3 :: rest =>
    (b0 % 256 * 16777216 + b1 % 256 * 65536 + b2 % 256 * 256 + b3 % 256) ::
      palabras rest
  | _ => []

/-- Split into 64-byte blocks (fuel-driven; fuel `l.length` suffices). -/
def bloques : Nat → List Nat → List (List Nat)
  | 0, _ => []
  | _, [] => []
  | n + 1, l => l.take 64 :: bloques n (l.drop 64)

def enBloques (l : List Nat) : List (List Nat) := bloques l.length l

/-- One step of message-schedule extension. -/
def extiendeW (ws : List Nat) : List Nat :=
  ws ++ [add32 (add32 (shaG1 (ws.getD (ws.length - 2) 0))
                      (ws.getD (ws.length - 7) 0))
               (add32 (shaG0 (ws.getD (ws.length - 15) 0))
                      (ws.getD (ws.length - 16) 0))]

/-- The 64-entry message schedule of a block. -/
def programa (ws : List Nat) : List Nat := extiendeW^[48] ws

/-- One compression round. -/
def shaRonda (kt wt : Nat) (st : List Nat) : List Nat :=
  match st with
  | [a, b, c, d, e, f, g, hh] =>
    let t1 := add32 (add32 (add32 hh (shaS1 e)) (add32 (shaCh e f g) kt)) wt
    let t2 := add32 (shaS0 a) (shaMaj a b c)
    [add32 t1 t2, a, b, c, add32 d t1, e, f, g]
  | st => st

/-- Compress one 64-byte block into the hash state. -/
def comprime (hs : List Nat) (bloque : List Nat) : List Nat :=
  let w := programa (palabras bloque)
  List.zipWith add32 hs
    ((List.range 64).foldl
      (fun st t => shaRonda (K256.getD t 0) (w.getD t 0) st) hs)

/-- The eight 32-bit words of the SHA-256 digest of a byte sequence. -/
def shaPalabras (msg : List Nat) : List Nat :=
  (enBloques (shaPad msg)).foldl comprime H256

/-- The digest read as one 256-bit number (big-endian word order). -/
def sha256Nat (msg : List Nat) : Nat :=
  (shaPalabras msg).foldl (fun a w => a * 4294967296 + w % 4294967296) 0

def hexChar (n : Nat) : Char := Char.ofNat (if n < 10 then 48 + n else 87 + n)

/-- `n` in `k` lowercase hex digits, most significant first. -/
def hexFijo : Nat → Nat → List Char
  | 0, _ => []
  | k + 1, n => hexFijo k (n / 16) ++ [hexChar (n % 16)]

/-- `hashlib.sha256(data).hexdigest()`: 64 lowercase hex characters. -/
def sha256hex (msg : List Nat) : String := ⟨hexFijo 64 (sha256Nat msg)⟩

/-- UTF-8 bytes of one character (mirrors core `String.utf8EncodeChar`,
as `Nat` arithmetic). -/
def charUtf8 (c : Char) : List Nat :=
  if c.toNat < 128 then [c.toNat]
  else if c.toNat < 2048 then [192 + c.toNat / 64, 128 + c.toNat % 64]
  else if c.toNat < 65536 then
    [224 + c.toNat / 4096, 128 + c.toNat / 64 % 64, 128 + c.toNat % 64]
  else
    [240 + c.toNat / 262144, 128 + c.toNat / 4096 % 64,
     128 + c.toNat / 64 % 64, 128 + c.toNat % 64]

/-- `password.encode()`: the UTF-8 bytes of the string. -/
def strBytes (s : String) : List Nat := s.data.flatMap charUtf8

/-- `hash_password` from the source. -/
def hash_password (password : String) : String := sha256hex (strBytes password)

/-- `verify_password` from the source. -/
def verify_password (password hashed : String) : Bool :=
  hash_password password == hashed

/-! ## Registration (`registro_form` submit handler) -/

/-- `validar_credenciales` from the source (`correo` truthy and without
`@` is rejected; an empty `correo` skips the check). -/
def validar_credenciales (usuario contrasena correo : String) : Bool :=
  if usuario.length < 3 then false
  else if contrasena.length < 6 then false
  else if correo ≠ "" && !(correo.contains (Char.ofNat 64)) then false
  else true

/-- Does the store already contain the username (`usuario in proyectos`)? -/
def existeUsuario (proyectos : StoreMem) (usuario : String) : Bool :=
  proyectos.any (fun p => p.1 == usuario)

/-- The `registro_form` submit handler: validate the credentials,
reject an existing username (store unchanged), otherwise append the
new record (hashed password, empty review list) and save. -/
def registro (proyectos : StoreMem)
    (usuario contrasena correo nombre_proyecto : String) (pisos : Nat)
    (tiene_sotanos : Bool) (num_sotanos : Nat)
    (foto_perfil : Option (List Nat)) : StoreMem :=
  if validar_credenciales usuario contrasena correo then
    if existeUsuario proyectos usuario then proyectos
    else
      proyectos ++ [(usuario,
        ⟨hash_password contrasena, correo, nombre_proyecto, pisos,
         tiene_sotanos, num_sotanos,
         (match foto_perfil with
          | some b => PhotoM.bytes b
          | none => PhotoM.null), []⟩)]
  else proyectos

/-! ## Deleting a review (`revisiones_guardadas.pop(i)`) -/

/-- The confirmed-delete action on the review list. -/
def eliminarRevision (revs : List RevMem) (i : Nat) : List RevMem :=
  revs.eraseIdx i

/-! ## Editing a review: checklist items and the history append -/

/-- The six fixed checklist items (`items_a_revisar`, in insertion
order of the source dictionary). -/
inductive ItemChequeo where
  | estribos
  | longitudinal
  | recubrimiento
  | posicion
  | ejes
  | traslapo
deriving DecidableEq, Repr

/-- `items_a_revisar` keys in iteration order. -/
def itemsLista : List ItemChequeo :=
  [ItemChequeo.estribos, ItemChequeo.longitudinal, ItemChequeo.recubrimiento,
   ItemChequeo.posicion, ItemChequeo.ejes, ItemChequeo.traslapo]

/-- `items_a_revisar` values (display labels). -/
def etiquetaItem : ItemChequeo → String
  | ItemChequeo.estribos => "Cantidad estribos"
  | ItemChequeo.longitudinal => "Cantidad acero longitudinal"
  | ItemChequeo.recubrimiento => "Recubrimiento"
  | ItemChequeo.posicion => "Posición acero"
  | ItemChequeo.ejes => "Ubicación columna (ejes)"
  | ItemChequeo.traslapo => "Traslapo"

/-- `rev[f'cumple_{key}']`. -/
def RevMem.cumpleDe (r : RevMem) : ItemChequeo → String
  | ItemChequeo.estribos => r.cumple_estribos
  | ItemChequeo.longitudinal => r.cumple_longitudinal
  | ItemChequeo.recubrimiento => r.cumple_recubrimiento
  | ItemChequeo.posicion => r.cumple_posicion
  | ItemChequeo.ejes => r.cumple_ejes
  | ItemChequeo.traslapo => r.cumple_traslapo

/-- `rev[f'obs_{key}']`. -/
def RevMem.obsDe (r : RevMem) : ItemChequeo → String
  | ItemChequeo.estribos => r.obs_estribos
  | ItemChequeo.longitudinal => r.obs_longitudinal
  | ItemChequeo.recubrimiento => r.obs_recubrimiento
  | ItemChequeo.posicion => r.obs_posicion
  | ItemChequeo.ejes => r.obs_ejes
  | ItemChequeo.traslapo => r.obs_traslapo

/-- The state of `datos_formulario` plus the basic form fields on
submit: per-item statuses and fail observations, the basic fields, and
the optional uploaded photo. -/
structure FormularioRevision where
  nombre : String
  piso : String
  fecha_revision : Date
  observaciones : String
  cumple : ItemChequeo → String
  obs : ItemChequeo → String
  foto_subida : Option (List Nat)

/-- An ASCII apostrophe as it appears inside the synthesized history
string. -/
def comilla : String := String.singleton (Char.ofNat 39)

/-- The history entry the edit branch appends for a corrected item:
`f"[{date.today()}] {label} corregido. Obs. anterior: '...'. Obs.
corrección: '...'"`.  (In the typed model the previous observation is
always present, so the `'Sin observación'` dictionary default of
`anterior.get` never fires.) -/
def entradaHistorial (today : Date) (k : ItemChequeo) (anterior : RevMem)
    (obs_correccion : String) : String :=
  "[" ++ toIso today ++ "] " ++ etiquetaItem k ++
    " corregido. Obs. anterior: " ++ comilla ++ anterior.obsDe k ++ comilla ++
    ". Obs. corrección: " ++ comilla ++ obs_correccion ++ comilla

/-- The checklist items whose status moves from `'No cumple'` to
`'Cumple'` in this edit, in iteration order. -/
def transiciones (anterior : RevMem) (nuevoCumple : ItemChequeo → String) :
    List ItemChequeo :=
  itemsLista.filter
    (fun k => anterior.cumpleDe k == "No cumple" && nuevoCumple k == "Cumple")

/-- The edit branch of the `revision_form` submit handler: build
`nueva_revision` from the form (history starts as the prior record's
history), then append one synthesized entry per fail-to-pass item. -/
def actualizarRevision (today : Date) (anterior : RevMem)
    (form : FormularioRevision) (obs_correccion : String) : RevMem :=
  ⟨form.nombre.trim, form.piso.trim, form.fecha_revision,
   form.observaciones.trim,
   anterior.historial ++
     (transiciones anterior form.cumple).map
       (fun k => entradaHistorial today k anterior obs_correccion),
   form.cumple ItemChequeo.estribos, form.cumple ItemChequeo.longitudinal,
   form.cumple ItemChequeo.recubrimiento, form.cumple ItemChequeo.posicion,
   form.cumple ItemChequeo.ejes, form.cumple ItemChequeo.traslapo,
   (form.obs ItemChequeo.estribos).trim, (form.obs ItemChequeo.longitudinal).trim,
   (form.obs ItemChequeo.recubrimiento).trim, (form.obs ItemChequeo.posicion).trim,
   (form.obs ItemChequeo.ejes).trim, (form.obs ItemChequeo.traslapo).trim,
   (match form.foto_subida with
    | some b => PhotoM.bytes b
    | none => anterior.foto)⟩

/-! ## Archive grouping (`revisiones_por_piso`) -/

/-- Append `x` to the group of key `k` (Python
`revisiones_por_piso[piso].append(...)`, creating the key at the end
of the dict on first sight). -/
def addToGroups (gs : List (String × List (Nat × RevMem))) (k : String)
    (x : Nat × RevMem) : List (String × List (Nat × RevMem)) :=
  match gs with
  | [] => [(k, [x])]
  | (k0, l) :: rest =>
    if k0 = k then (k0, l ++ [x]) :: rest
    else (k0, l) :: addToGroups rest k x

/-- The grouping loop over `enumerate(st.session_state.revisiones_guardadas)`
(`piso = str(rev.get('piso', 'Sin piso'))`; in the typed model the
floor label is the string field itself). -/
def revisiones_por_piso (revs : List RevMem) :
    List (String × List (Nat × RevMem)) :=
  revs.enum.foldl (fun gs p => addToGroups gs p.2.piso p) []

/-- `pisos_ordenados = sorted(revisiones_por_piso.keys())`. -/
def pisos_ordenados (revs : List RevMem) : List String :=
  ((revisiones_por_piso revs).map Prod.fst).mergeSort (fun a b => a ≤ b)

/-- Invariant of the grouping dictionary: keys are distinct, every
entry is in the group of its own floor label. -/
def InvGrupos (gs : List (String × List (Nat × RevMem))) : Prop :=
  (gs.map Prod.fst).Nodup ∧ ∀ g ∈ gs, ∀ x ∈ g.2, x.2.piso = g.1

/-! ## Concrete example data (used by witnesses and counterexamples) -/

def fechaEjemplo : Date := ⟨2024, 5, 7⟩

def revisionEjemplo : RevMem :=
  ⟨"C1", "PB", fechaEjemplo, "sin novedad", ["nota previa"],
   "Cumple", "No cumple", "Cumple", "Cumple", "Cumple", "Cumple",
   "", "faltan 2 barras", "", "", "", "",
   PhotoM.bytes [255, 0, 16]⟩

def revisionEjemplo2 : RevMem :=
  ⟨"C2", "1", ⟨2024, 6, 1⟩, "", [],
   "Cumple", "Cumple", "Cumple", "Cumple", "Cumple", "Cumple",
   "", "", "", "", "", "",
   PhotoM.null⟩

def usuarioEjemplo : UserMem :=
  ⟨"abcd1234", "ana@obra.co", "Torre Licay", 5, true, 1,
   PhotoM.bytes [1, 2, 3], [revisionEjemplo, revisionEjemplo2]⟩

def tiendaEjemplo : StoreMem := [("ana", usuarioEjemplo)]

/-- A record whose profile photo is the empty byte string `b''` (still
"raw bytes"): it is falsy, skips base64 encoding, and crashes
`json.dump`. -/
def usuarioFotoVacia : UserMem :=
  ⟨"x", "a@b", "P", 1, false, 0, PhotoM.bytes [], []⟩

def tiendaFotoVacia : StoreMem := [("bruno", usuarioFotoVacia)]

/-- A stored review whose date string is not ISO-8601 and whose photo
string fails base64 decoding (`"AAA"`: three data characters is an
invalid padding). -/
def revDiskMala : RevDisk :=
  ⟨"C9", "PB", "fecha mala", "", [],
   "Cumple", "Cumple", "Cumple", "Cumple", "Cumple", "Cumple",
   "", "", "", "", "", "",
   PhotoD.str "AAA"⟩

def formEjemplo : FormularioRevision :=
  ⟨"C1", "PB", fechaEjemplo, "corregido todo",
   fun _ => "Cumple", fun _ => "", none⟩

def revsEjemplo : List RevMem :=
  [revisionEjemplo, revisionEjemplo2, revisionEjemplo]

/-! ## Heap model of `guardar_proyectos` (for the frame property)

Python dictionaries and lists are mutable objects on a heap; immutable
values (`None`, `bool`, `int`, `str`, `bytes`, `date`) sit directly in
the slots.  `guardar_proyectos` copies (`info.copy()`, `rev.copy()`)
before assigning, so all its writes go to freshly allocated objects.
The model makes the allocations and field writes explicit so that
"the argument is left unchanged" is a real statement about the heap. -/

abbrev Addr := Nat

inductive PyVal where
  | vnone : PyVal
  | vbool (b : Bool) : PyVal
  | vint (n : Int) : PyVal
  | vstr (s : String) : PyVal
  | vbytes (b : List Nat) : PyVal
  | vdate (d : Date) : PyVal
  | vref (a : Addr) : PyVal
deriving DecidableEq, Repr

inductive PyObj where
  | odict (campos : List (String × PyVal)) : PyObj
  | olist (elems : List PyVal) : PyObj
deriving DecidableEq, Repr

abbrev Heap := List PyObj

/-- Python dict assignment: replace in place, append a fresh key. -/
def setField (campos : List (String × PyVal)) (k : String) (v : PyVal) :
    List (String × PyVal) :=
  match campos with
  | [] => [(k, v)]
  | (k0, v0) :: rest =>
    if k0 = k then (k0, v) :: rest else (k0, v0) :: setField rest k v

def getField (campos : List (String × PyVal)) (k : String) : Option PyVal :=
  match campos with
  | [] => none
  | (k0, v0) :: rest => if k0 = k then some v0 else getField rest k

def dictGet (h : Heap) (a : Addr) (k : String) : Option PyVal :=
  match h.get? a with
  | some (PyObj.odict campos) => getField campos k
  | _ => none

def dictSet (h : Heap) (a : Addr) (k : String) (v : PyVal) : Heap :=
  match h.get? a with
  | some (PyObj.odict campos) => h.set a (PyObj.odict (setField campos k v))
  | _ => h

/-- Python truthiness of a value (containers read through the heap). -/
def esTruthy (h : Heap) : PyVal → Bool
  | PyVal.vnone => false
  | PyVal.vbool b => b
  | PyVal.vint n => !(n == 0)
  | PyVal.vstr s => !(s == "")
  | PyVal.vbytes b => !b.isEmpty
  | PyVal.vdate _ => true
  | PyVal.vref a =>
    match h.get? a with
    | some (PyObj.odict campos) => !campos.isEmpty
    | some (PyObj.olist elems) => !elems.isEmpty
    | none => true

/-- Lines 107-108: convert a date value in the copy to its ISO
string. -/
def pasoFecha (h : Heap) (ca : Addr) (campos : List (String × PyVal)) :
    Heap :=
  match getField campos "fecha_revision" with
  | some (PyVal.vdate d) =>
    dictSet h ca "fecha_revision" (PyVal.vstr (toIso d))
  | _ => h

/-- Lines 111-117: encode a truthy review photo in the copy (`bytes`
to base64 text, any other truthy value to `None`). -/
def pasoFotoRev (h : Heap) (ca : Addr) : Heap :=
  match dictGet h ca "foto" with
  | some fv =>
    if esTruthy h fv then
      match fv with
      | PyVal.vbytes b => dictSet h ca "foto" (PyVal.vstr (b64encodePy b))
      | _ => dictSet h ca "foto" PyVal.vnone
    else h
  | none => h

/-- Lines 94-98: encode a truthy `bytes` profile photo in the copy
(no `else` branch here). -/
def pasoFotoPerfil (h : Heap) (ca : Addr) : Heap :=
  match dictGet h ca "foto_perfil" with
  | some fv =>
    if esTruthy h fv then
      match fv with
      | PyVal.vbytes b =>
        dictSet h ca "foto_perfil" (PyVal.vstr (b64encodePy b))
      | _ => h
    else h
  | none => h

/-- `rev_copy = rev.copy()` plus the two field conversions; `none`
models an exception (a review that is not a dict). -/
def procesaRevHeap (h : Heap) (rv : PyVal) : Heap × Option PyVal :=
  match rv with
  | PyVal.vref ra =>
    match h.get? ra with
    | some (PyObj.odict campos) =>
      let ca := h.length
      let h1 := h ++ [PyObj.odict campos]
      let h2 := pasoFecha h1 ca campos
      let h3 := pasoFotoRev h2 ca
      (h3, some (PyVal.vref ca))
    | _ => (h, none)
  | _ => (h, none)

/-- `revisiones_procesadas`, accumulating processed copies. -/
def procesaRevsHeap (h : Heap) : List PyVal → Heap × Option (List PyVal)
  | [] => (h, some [])
  | v :: rest =>
    match procesaRevHeap h v with
    | (h1, some pv) =>
      match procesaRevsHeap h1 rest with
      | (h2, some pvs) => (h2, some (pv :: pvs))
      | (h2, none) => (h2, none)
    | (h1, none) => (h1, none)

/-- Lines 101-121: when the copy has a `revisiones` key referring to a
list, process each review, allocate the fresh `revisiones_procesadas`
list, and redirect the copy's `revisiones` slot to it; `false` models
an exception (a review that is not a dict, or a `revisiones` value of
the wrong shape). -/
def pasoRevisiones (h : Heap) (ca : Addr) : Heap × Bool :=
  match dictGet h ca "revisiones" with
  | some (PyVal.vref la) =>
    match h.get? la with
    | some (PyObj.olist elems) =>
      match procesaRevsHeap h elems with
      | (h3, some pvs) =>
        (dictSet (h3 ++ [PyObj.olist pvs]) ca "revisiones"
          (PyVal.vref h3.length), true)
      | (h3, none) => (h3, false)
    | _ => (h, false)
  | some _ => (h, false)
  | none => (h, true)

/-- `user_data = info.copy()` plus photo encoding and review
processing. -/
def procesaUserHeap (h : Heap) (uv : PyVal) : Heap × Option PyVal :=
  match uv with
  | PyVal.vref ua =>
    match h.get? ua with
    | some (PyObj.odict campos) =>
      let ca := h.length
      let h1 := h ++ [PyObj.odict campos]
      let h2 := pasoFotoPerfil h1 ca
      match pasoRevisiones h2 ca with
      | (h3, true) => (h3, some (PyVal.vref ca))
      | (h3, false) => (h3, none)
    | _ => (h, none)
  | _ => (h, none)

/-- The `for usuario, info in data.items()` loop filling
`data_to_save` (at `dsAddr`). -/
def procesaUsersHeap (h : Heap) (dsAddr : Addr) :
    List (String × PyVal) → Heap × Bool
  | [] => (h, true)
  | (u, uv) :: rest =>
    match procesaUserHeap h uv with
    | (h1, some pv) => procesaUsersHeap (dictSet h1 dsAddr u pv) dsAddr rest
    | (h1, none) => (h1, false)

/-- Is the value serializable by `json.dump` (fuel-bounded reference
chasing; a cycle exhausts the fuel, matching the `ValueError` CPython
raises on circular structures)? -/
def jsonOk : Nat → Heap → PyVal → Bool
  | 0, _, _ => false
  | n + 1, h, v =>
    match v with
    | PyVal.vnone => true
    | PyVal.vbool _ => true
    | PyVal.vint _ => true
    | PyVal.vstr _ => true
    | PyVal.vbytes _ => false
    | PyVal.vdate _ => false
    | PyVal.vref a =>
      match h.get? a with
      | some (PyObj.odict campos) => campos.all (fun kv => jsonOk n h kv.2)
      | some (PyObj.olist elems) => elems.all (fun e => jsonOk n h e)
      | none => false

/-- `guardar_proyectos` over the heap: allocate `data_to_save`, copy
and convert every record into it, then `json.dump` (a pure read).  The
returned heap is the heap after the call; the `Bool` is the function's
return value. -/
def guardar_proyectos_heap (h : Heap) (root : Addr) : Heap × Bool :=
  match h.get? root with
  | some (PyObj.odict entradas) =>
    let dsAddr := h.length
    let h1 := h ++ [PyObj.odict []]
    match procesaUsersHeap h1 dsAddr entradas with
    | (h2, true) => (h2, jsonOk (h2.length + 1) h2 (PyVal.vref dsAddr))
    | (h2, false) => (h2, false)
  | _ => (h, false)

/-- `h1` extends `h0`: all of `h0`'s cells are intact. -/
def ExtiendeHeap (h0 h1 : Heap) : Prop := h1.take h0.length = h0

/-- A concrete session heap: the store dict at address 0, one user
record at 1 (raw-bytes photo, a reviews list at 2), one review dict at
3 (date value, raw-bytes photo, history list at 4). -/
def usuarioHeapEjemplo : PyObj :=
  PyObj.odict
    [("contrasena", PyVal.vstr "abcd1234"),
     ("foto_perfil", PyVal.vbytes [1, 2, 3]),
     ("revisiones", PyVal.vref 2)]

def heapEjemplo : Heap :=
  [PyObj.odict [("ana", PyVal.vref 1)],
   usuarioHeapEjemplo,
   PyObj.olist [PyVal.vref 3],
   PyObj.odict
     [("fecha_revision", PyVal.vdate fechaEjemplo),
      ("foto", PyVal.vbytes [255, 0, 16]),
      ("historial", PyVal.vref 4)],
   PyObj.olist [PyVal.vstr "nota previa"]]

/-! ## Properties and claims -/

theorem valorDigito_digitChar {k : Nat} (h : k < 10) :
    valorDigito (digitChar k) = k := by
  interval_cases k <;> decide

theorem esDigito_digitChar {k : Nat} (h : k < 10) :
    esDigito (digitChar k) = true := by
  interval_cases k <;> decide

theorem diasMes_le_31 (y m : Nat) : diasMes y m ≤ 31 := by
  unfold diasMes
  split_ifs <;> norm_num

theorem parseIso_toIso {d : Date} (h : d.Valid) : parseIso (toIso d) = some d := by
  obtain ⟨h1, h2, h3, h4, h5, h6⟩ := h
  have hd31 : diasMes d.year d.month ≤ 31 := diasMes_le_31 _ _
  have hy1 : d.year / 1000 % 10 < 10 := Nat.mod_lt _ (by norm_num)
  have hy2 : d.year / 100 % 10 < 10 := Nat.mod_lt _ (by norm_num)
  have hy3 : d.year / 10 % 10 < 10 := Nat.mod_lt _ (by norm_num)
  have hy4 : d.year % 10 < 10 := Nat.mod_lt _ (by norm_num)
  have hm1 : d.month / 10 % 10 < 10 := Nat.mod_lt _ (by norm_num)
  have hm2 : d.month % 10 < 10 := Nat.mod_lt _ (by norm_num)
  have hd1 : d.day / 10 % 10 < 10 := Nat.mod_lt _ (by norm_num)
  have hd2 : d.day % 10 < 10 := Nat.mod_lt _ (by norm_num)
  have ey : d.year / 1000 % 10 * 1000 + d.year / 100 % 10 * 100 +
      d.year / 10 % 10 * 10 + d.year % 10 = d.year := by omega
  have em : d.month / 10 % 10 * 10 + d.month % 10 = d.month := by omega
  have ed : d.day / 10 % 10 * 10 + d.day % 10 = d.day := by omega
  simp only [toIso, parseIso,
    esDigito_digitChar hy1, esDigito_digitChar hy2, esDigito_digitChar hy3,
    esDigito_digitChar hy4, esDigito_digitChar hm1, esDigito_digitChar hm2,
    esDigito_digitChar hd1, esDigito_digitChar hd2,
    valorDigito_digitChar hy1, valorDigito_digitChar hy2,
    valorDigito_digitChar hy3, valorDigito_digitChar hy4,
    valorDigito_digitChar hm1, valorDigito_digitChar hm2,
    valorDigito_digitChar hd1, valorDigito_digitChar hd2,
    beq_self_eq_true, Bool.true_and, Bool.and_true, ey, em, ed]
  split
  · split
    · rfl
    · rename_i hfalse
      simp only [Bool.and_eq_true, decide_eq_true_eq] at hfalse
      omega
  · simp_all

theorem b64index_b64char : ∀ n : Fin 64, b64index (b64char n.val) = some n.val := by
  decide

theorem b64char_ne_padChar : ∀ n : Fin 64, b64char n.val ≠ padChar := by
  decide

theorem b64index_padChar : b64index padChar = none := by decide

theorem b64index_b64char_of_lt {k : Nat} (h : k < 64) :
    b64index (b64char k) = some k := b64index_b64char ⟨k, h⟩

theorem b64char_ne_padChar_of_lt {k : Nat} (h : k < 64) :
    b64char k ≠ padChar := b64char_ne_padChar ⟨k, h⟩

/-- The filter inside `pyB64Decode` keeps every character that
`b64encodeChars` emits. -/
theorem filter_b64encodeChars (l : List Nat) (h : ∀ b ∈ l, b < 256) :
    (b64encodeChars l).filter
      (fun c => (b64index c).isSome || c == padChar) = b64encodeChars l := by
  induction l using b64encodeChars.induct with
  | case1 => rfl
  | case2 b1 =>
    have hb1 : b1 < 256 := h b1 (by simp)
    simp [b64encodeChars, b64index_b64char_of_lt (show b1 / 4 < 64 by omega),
      b64index_b64char_of_lt (show b1 % 4 * 16 < 64 by omega)]
  | case3 b1 b2 =>
    have hb1 : b1 < 256 := h b1 (by simp)
    have hb2 : b2 < 256 := h b2 (by simp)
    simp [b64encodeChars, b64index_b64char_of_lt (show b1 / 4 < 64 by omega),
      b64index_b64char_of_lt (show b1 % 4 * 16 + b2 / 16 < 64 by omega),
      b64index_b64char_of_lt (show b2 % 16 * 4 < 64 by omega)]
  | case4 b1 b2 b3 rest ih =>
    have hb1 : b1 < 256 := h b1 (by simp)
    have hb2 : b2 < 256 := h b2 (by simp)
    have hb3 : b3 < 256 := h b3 (by simp)
    have hrest : ∀ b ∈ rest, b < 256 := fun b hb => h b (by simp [hb])
    simp [b64encodeChars, b64index_b64char_of_lt (show b1 / 4 < 64 by omega),
      b64index_b64char_of_lt (show b1 % 4 * 16 + b2 / 16 < 64 by omega),
      b64index_b64char_of_lt (show b2 % 16 * 4 + b3 / 64 < 64 by omega),
      b64index_b64char_of_lt (show b3 % 64 < 64 by omega), ih hrest]

/-- Decoding inverts encoding on byte lists. -/
theorem b64decodeChars_b64encodeChars (l : List Nat) (h : ∀ b ∈ l, b < 256) :
    b64decodeChars (b64encodeChars l) = some l := by
  induction l using b64encodeChars.induct with
  | case1 => rfl
  | case2 b1 =>
    have hb1 : b1 < 256 := h b1 (by simp)
    simp only [b64encodeChars, b64decodeChars,
      b64index_b64char_of_lt (show b1 / 4 < 64 by omega),
      b64index_b64char_of_lt (show b1 % 4 * 16 < 64 by omega)]
    rw [if_pos (by simp)]
    simp only [Option.some.injEq, List.cons.injEq, and_true]
    omega
  | case3 b1 b2 =>
    have hb1 : b1 < 256 := h b1 (by simp)
    have hb2 : b2 < 256 := h b2 (by simp)
    simp only [b64encodeChars, b64decodeChars,
      b64index_b64char_of_lt (show b1 / 4 < 64 by omega),
      b64index_b64char_of_lt (show b1 % 4 * 16 + b2 / 16 < 64 by omega)]
    rw [if_neg (by simp [b64char_ne_padChar_of_lt (show b2 % 16 * 4 < 64 by omega)])]
    rw [if_pos (by simp)]
    simp only [b64index_b64char_of_lt (show b2 % 16 * 4 < 64 by omega),
      Option.some.injEq, List.cons.injEq, and_true]
    omega
  | case4 b1 b2 b3 rest ih =>
    have hb1 : b1 < 256 := h b1 (by simp)
    have hb2 : b2 < 256 := h b2 (by simp)
    have hb3 : b3 < 256 := h b3 (by simp)
    have hrest : ∀ b ∈ rest, b < 256 := fun b hb => h b (by simp [hb])
    simp only [b64encodeChars, b64decodeChars,
      b64index_b64char_of_lt (show b1 / 4 < 64 by omega),
      b64index_b64char_of_lt (show b1 % 4 * 16 + b2 / 16 < 64 by omega)]
    rw [if_neg (by simp [b64char_ne_padChar_of_lt (show b2 % 16 * 4 + b3 / 64 < 64 by omega)])]
    rw [if_neg (by simp [b64char_ne_padChar_of_lt (show b3 % 64 < 64 by omega)])]
    simp only [b64index_b64char_of_lt (show b2 % 16 * 4 + b3 / 64 < 64 by omega),
      b64index_b64char_of_lt (show b3 % 64 < 64 by omega), ih hrest,
      Option.map_some', Option.some.injEq, List.cons.injEq, and_true]
    refine ⟨by omega, by omega, by omega⟩

/-- `base64.b64decode(base64.b64encode(b).decode('utf-8')) == b`. -/
theorem pyB64Decode_b64encodePy (l : List Nat) (h : ∀ b ∈ l, b < 256) :
    pyB64Decode (b64encodePy l) = some l := by
  unfold pyB64Decode b64encodePy
  rw [show (String.mk (b64encodeChars l)).data = b64encodeChars l from rfl]
  rw [filter_b64encodeChars l h, b64decodeChars_b64encodeChars l h]

/-- Encoding a non-empty byte list yields a non-empty (truthy) string. -/
theorem b64encodePy_ne_empty (l : List Nat) (h : l ≠ []) :
    b64encodePy l ≠ "" := by
  rcases l with _ | ⟨b1, _ | ⟨b2, _ | ⟨b3, rest⟩⟩⟩
  · exact absurd rfl h
  all_goals
    simp only [b64encodePy, b64encodeChars]
    intro hc
    exact absurd (congrArg String.data hc) (by simp)

/-- The empty string decodes to the empty byte string (CPython
`base64.b64decode('') == b''`). -/
theorem pyB64Decode_empty : pyB64Decode "" = some [] := rfl

/-! ## Save/load round-trip lemmas -/

theorem roundFotoPerfil {p : PhotoM} (h : FotoBytesNoVacia p) :
    ∃ pd, guardarFotoPerfil p = some pd ∧ cargarFoto pd = p := by
  cases p with
  | null => exact ⟨PhotoD.null, rfl, rfl⟩
  | bytes b =>
    obtain ⟨hne, hb⟩ := h
    refine ⟨PhotoD.str (b64encodePy b), ?_, ?_⟩
    · simp [guardarFotoPerfil, List.isEmpty_iff, hne]
    · simp [cargarFoto, b64encodePy_ne_empty b hne, pyB64Decode_b64encodePy b hb]
  | str s => exact absurd h id

theorem roundFotoRev {p : PhotoM} (h : FotoBytesNoVacia p) :
    ∃ pd, guardarFotoRev p = some pd ∧ cargarFoto pd = p := by
  cases p with
  | null => exact ⟨PhotoD.null, rfl, rfl⟩
  | bytes b =>
    obtain ⟨hne, hb⟩ := h
    refine ⟨PhotoD.str (b64encodePy b), ?_, ?_⟩
    · simp [guardarFotoRev, List.isEmpty_iff, hne]
    · simp [cargarFoto, b64encodePy_ne_empty b hne, pyB64Decode_b64encodePy b hb]
  | str s => exact absurd h id

theorem roundRevision {r : RevMem} (today : Date) (h : RevWF r) :
    ∃ rd, guardarRevision r = some rd ∧ cargarRevision today rd = r := by
  obtain ⟨hfoto, hfecha⟩ := h
  obtain ⟨fd, hfd, hfd2⟩ := roundFotoRev hfoto
  refine ⟨⟨r.nombre, r.piso, toIso r.fecha_revision, r.observaciones,
    r.historial, r.cumple_estribos, r.cumple_longitudinal,
    r.cumple_recubrimiento, r.cumple_posicion, r.cumple_ejes,
    r.cumple_traslapo, r.obs_estribos, r.obs_longitudinal,
    r.obs_recubrimiento, r.obs_posicion, r.obs_ejes, r.obs_traslapo,
    fd⟩, ?_, ?_⟩
  · simp only [guardarRevision, hfd]
  · simp only [cargarRevision, parseIso_toIso hfecha, hfd2]

theorem roundRevisiones {rs : List RevMem} (today : Date)
    (h : ∀ r ∈ rs, RevWF r) :
    ∃ rds, guardarRevisiones rs = some rds ∧
      rds.map (cargarRevision today) = rs := by
  induction rs with
  | nil => exact ⟨[], rfl, rfl⟩
  | cons r rs ih =>
    obtain ⟨rd, hrd, hrd2⟩ := roundRevision today (h r (by simp))
    obtain ⟨rds, hrds, hrds2⟩ := ih (fun x hx => h x (by simp [hx]))
    exact ⟨rd :: rds, by simp [guardarRevisiones, hrd, hrds], by simp [hrd2, hrds2]⟩

theorem roundInfo {info : UserMem} (today : Date) (h : UserWF info) :
    ∃ di, guardarInfo info = some di ∧ cargarInfo today di = info := by
  obtain ⟨hfoto, hrevs⟩ := h
  obtain ⟨fd, hfd, hfd2⟩ := roundFotoPerfil hfoto
  obtain ⟨rds, hrds, hrds2⟩ := roundRevisiones today hrevs
  exact ⟨⟨info.contrasena, info.correo, info.nombre_proyecto, info.pisos,
      info.tiene_sotanos, info.num_sotanos, fd, rds⟩,
    by simp only [guardarInfo, hfd, hrds],
    by simp [cargarInfo, hfd2, hrds2]⟩

theorem roundStore (data : StoreMem) (today : Date) (h : StoreWF data) :
    ∃ d, guardar_proyectos data = some d ∧
      cargar_proyectos (Except.ok d) today = data := by
  induction data with
  | nil => exact ⟨[], rfl, rfl⟩
  | cons p rest ih =>
    obtain ⟨di, hdi, hdi2⟩ := roundInfo today (h p (by simp))
    obtain ⟨ds, hds, hds2⟩ := ih (fun x hx => h x (by simp [hx]))
    refine ⟨(p.1, di) :: ds, ?_, ?_⟩
    · simp only [guardar_proyectos, hdi, hds]
    · simp only [cargar_proyectos] at hds2 ⊢
      simp [hdi2, hds2]

theorem guardarFotoPerfil_ok {p : PhotoM} {pd : PhotoD} (h : FotoBytes p)
    (hg : guardarFotoPerfil p = some pd) : FotoDiskOk pd := by
  cases p with
  | null =>
    simp only [guardarFotoPerfil, Option.some.injEq] at hg
    simp [← hg, FotoDiskOk]
  | bytes b =>
    simp only [guardarFotoPerfil] at hg
    rcases hb : b.isEmpty with _ | _
    · rw [hb] at hg
      simp only [Bool.false_eq_true, if_false, Option.some.injEq] at hg
      simp [← hg, FotoDiskOk, pyB64Decode_b64encodePy b h]
    · rw [hb] at hg
      simp at hg
  | str s => exact absurd h id

theorem guardarFotoRev_ok {p : PhotoM} {pd : PhotoD} (h : FotoBytes p)
    (hg : guardarFotoRev p = some pd) : FotoDiskOk pd := by
  cases p with
  | null =>
    simp only [guardarFotoRev, Option.some.injEq] at hg
    simp [← hg, FotoDiskOk]
  | bytes b =>
    simp only [guardarFotoRev] at hg
    rcases hb : b.isEmpty with _ | _
    · rw [hb] at hg
      simp only [Bool.false_eq_true, if_false, Option.some.injEq] at hg
      simp [← hg, FotoDiskOk, pyB64Decode_b64encodePy b h]
    · rw [hb] at hg
      simp at hg
  | str s => exact absurd h id

theorem guardarRevision_ok {r : RevMem} {rd : RevDisk} (h : RevWFDebil r)
    (hg : guardarRevision r = some rd) :
    FotoDiskOk rd.foto ∧ (parseIso rd.fecha_revision).isSome = true := by
  obtain ⟨hfoto, hfecha⟩ := h
  simp only [guardarRevision] at hg
  rcases hfd : guardarFotoRev r.foto with _ | fd
  · rw [hfd] at hg; simp at hg
  · rw [hfd] at hg
    simp only [Option.some.injEq] at hg
    subst hg
    exact ⟨guardarFotoRev_ok hfoto hfd, by simp [parseIso_toIso hfecha]⟩

theorem guardarRevisiones_ok {rs : List RevMem} {rds : List RevDisk}
    (h : ∀ r ∈ rs, RevWFDebil r) (hg : guardarRevisiones rs = some rds) :
    ∀ rd ∈ rds, FotoDiskOk rd.foto ∧ (parseIso rd.fecha_revision).isSome = true := by
  induction rs generalizing rds with
  | nil =>
    simp only [guardarRevisiones, Option.some.injEq] at hg
    subst hg; simp
  | cons r rs ih =>
    simp only [guardarRevisiones] at hg
    rcases h1 : guardarRevision r with _ | rd
    · rw [h1] at hg; simp at hg
    · rw [h1] at hg
      rcases h2 : guardarRevisiones rs with _ | rds'
      · rw [h2] at hg; simp at hg
      · rw [h2] at hg
        simp only [Option.some.injEq] at hg
        subst hg
        intro x hx
        rcases List.mem_cons.mp hx with rfl | hx'
        · exact guardarRevision_ok (h r (by simp)) h1
        · exact ih (fun y hy => h y (by simp [hy])) h2 x hx'

theorem guardarInfo_ok {info : UserMem} {di : UserDisk} (h : UserWFDebil info)
    (hg : guardarInfo info = some di) :
    FotoDiskOk di.foto_perfil ∧
      ∀ rd ∈ di.revisiones, FotoDiskOk rd.foto ∧
        (parseIso rd.fecha_revision).isSome = true := by
  obtain ⟨hfoto, hrevs⟩ := h
  simp only [guardarInfo] at hg
  rcases h1 : guardarFotoPerfil info.foto_perfil with _ | fd
  · rw [h1] at hg; simp at hg
  · rw [h1] at hg
    rcases h2 : guardarRevisiones info.revisiones with _ | rds
    · rw [h2] at hg; simp at hg
    · rw [h2] at hg
      simp only [Option.some.injEq] at hg
      subst hg
      exact ⟨guardarFotoPerfil_ok hfoto h1, guardarRevisiones_ok hrevs h2⟩

theorem guardarStore_ok {data : StoreMem} {d : StoreDisk}
    (h : StoreWFDebil data) (hg : guardar_proyectos data = some d) :
    StoreDiskOk d := by
  induction data generalizing d with
  | nil =>
    simp only [guardar_proyectos, Option.some.injEq] at hg
    subst hg; intro p hp; simp at hp
  | cons p rest ih =>
    obtain ⟨u, info⟩ := p
    simp only [guardar_proyectos] at hg
    rcases h1 : guardarInfo info with _ | di
    · rw [h1] at hg; simp at hg
    · rw [h1] at hg
      rcases h2 : guardar_proyectos rest with _ | ds
      · rw [h2] at hg; simp at hg
      · rw [h2] at hg
        simp only [Option.some.injEq] at hg
        subst hg
        intro q hq
        rcases List.mem_cons.mp hq with rfl | hq'
        · exact guardarInfo_ok (h (u, info) (by simp)) h1
        · exact ih (fun y hy => h y (by simp [hy])) h2 q hq'

theorem shaRonda_length (kt wt : Nat) (st : List Nat) :
    (shaRonda kt wt st).length = st.length := by
  unfold shaRonda
  split <;> simp

theorem foldl_shaRonda_length (ts : List Nat) (w : List Nat) (st : List Nat) :
    (ts.foldl (fun st t => shaRonda (K256.getD t 0) (w.getD t 0) st) st).length
      = st.length := by
  induction ts generalizing st with
  | nil => rfl
  | cons t ts ih => rw [List.foldl_cons, ih, shaRonda_length]

theorem comprime_length (hs bloque : List Nat) (h : hs.length = 8) :
    (comprime hs bloque).length = 8 := by
  unfold comprime
  rw [List.length_zipWith, foldl_shaRonda_length, h, Nat.min_self]

theorem shaPalabras_length (msg : List Nat) : (shaPalabras msg).length = 8 := by
  have key : ∀ (bs : List (List Nat)) (hs : List Nat), hs.length = 8 →
      (bs.foldl comprime hs).length = 8 := by
    intro bs
    induction bs with
    | nil => intro hs h; exact h
    | cons b bs ih => intro hs h; exact ih _ (comprime_length _ _ h)
  exact key _ H256 rfl

theorem sha256Nat_lt (msg : List Nat) : sha256Nat msg < 4294967296 ^ 8 := by
  have key : ∀ (l : List Nat) (a : Nat),
      l.foldl (fun a w => a * 4294967296 + w % 4294967296) a <
        (a + 1) * 4294967296 ^ l.length := by
    intro l
    induction l with
    | nil =>
      intro a
      simp only [List.foldl_nil, List.length_nil, pow_zero, Nat.mul_one]
      exact Nat.lt_succ_self a
    | cons w l ih =>
      intro a
      have h1 := ih (a * 4294967296 + w % 4294967296)
      have h2 : a * 4294967296 + w % 4294967296 + 1 ≤ (a + 1) * 4294967296 := by
        have : w % 4294967296 < 4294967296 := Nat.mod_lt _ (by norm_num)
        nlinarith
      calc (w :: l).foldl (fun a w => a * 4294967296 + w % 4294967296) a
          < (a * 4294967296 + w % 4294967296 + 1) * 4294967296 ^ l.length := h1
        _ ≤ (a + 1) * 4294967296 * 4294967296 ^ l.length :=
            Nat.mul_le_mul_right _ h2
        _ = (a + 1) * 4294967296 ^ (w :: l).length := by
            rw [List.length_cons, pow_succ]
            ring
  have h := key (shaPalabras msg) 0
  rw [shaPalabras_length] at h
  simpa using h

theorem hash_password_eq_of_sha {p q : String}
    (h : sha256Nat (strBytes p) = sha256Nat (strBytes q)) :
    hash_password p = hash_password q := by
  unfold hash_password sha256hex
  rw [h]

/-- SHA-256 maps infinitely many passwords into finitely many digests,
so two distinct passwords share a hash. -/
theorem sha256_collision : ∃ p q : String, p ≠ q ∧
    hash_password p = hash_password q := by
  obtain ⟨n, m, hnm, heq⟩ := Finite.exists_ne_map_eq_of_infinite
    (fun n : Nat =>
      (⟨sha256Nat (strBytes ⟨List.replicate n 'a'⟩), sha256Nat_lt _⟩ :
        Fin (4294967296 ^ 8)))
  refine ⟨⟨List.replicate n 'a'⟩, ⟨List.replicate m 'a'⟩, ?_, ?_⟩
  · intro hc
    apply hnm
    have hlen := congrArg (fun s : String => s.data.length) hc
    simp only [List.length_replicate] at hlen
    exact hlen
  · exact hash_password_eq_of_sha (congrArg Fin.val heq)

theorem addToGroups_fst (gs : List (String × List (Nat × RevMem)))
    (k : String) (x : Nat × RevMem) :
    (addToGroups gs k x).map Prod.fst =
      if k ∈ gs.map Prod.fst then gs.map Prod.fst
      else gs.map Prod.fst ++ [k] := by
  induction gs with
  | nil => simp [addToGroups]
  | cons p rest ih =>
    obtain ⟨k0, l⟩ := p
    by_cases h : k0 = k
    · subst h
      simp [addToGroups]
    · simp only [addToGroups, if_neg h, List.map_cons, ih]
      by_cases hm : k ∈ rest.map Prod.fst
      · rw [if_pos hm, if_pos (by simp [hm])]
      · rw [if_neg hm, if_neg ?hneg]
        · simp
        case hneg =>
          simp only [List.mem_cons]
          push_neg
          exact ⟨fun hh => h hh.symm, hm⟩

theorem addToGroups_values {gs : List (String × List (Nat × RevMem))}
    {k : String} {x : Nat × RevMem}
    (hval : ∀ g ∈ gs, ∀ y ∈ g.2, y.2.piso = g.1) (hx : x.2.piso = k) :
    ∀ g ∈ addToGroups gs k x, ∀ y ∈ g.2, y.2.piso = g.1 := by
  induction gs with
  | nil =>
    intro g hg y hy
    simp only [addToGroups, List.mem_singleton] at hg
    subst hg
    simp only [List.mem_singleton] at hy
    subst hy
    exact hx
  | cons p rest ih =>
    obtain ⟨k0, l⟩ := p
    intro g hg y hy
    simp only [addToGroups] at hg
    split at hg
    · rename_i hk
      rcases List.mem_cons.mp hg with rfl | hg2
      · rcases List.mem_append.mp hy with hy2 | hy3
        · exact hval (k0, l) (by simp) y hy2
        · simp only [List.mem_singleton] at hy3
          subst hy3
          rw [hx, hk]
      · exact hval g (by simp [hg2]) y hy
    · rcases List.mem_cons.mp hg with rfl | hg2
      · exact hval (k0, l) (by simp) y hy
      · exact ih (fun g' hg' => hval g' (by simp [hg'])) g hg2 y hy

theorem addToGroups_inv {gs : List (String × List (Nat × RevMem))}
    {k : String} {x : Nat × RevMem} (h : InvGrupos gs) (hx : x.2.piso = k) :
    InvGrupos (addToGroups gs k x) := by
  obtain ⟨hnd, hval⟩ := h
  refine ⟨?_, addToGroups_values hval hx⟩
  rw [addToGroups_fst]
  split
  · exact hnd
  · rename_i hm
    simp [List.Nodup.append, hnd, hm]

theorem addToGroups_flatten (gs : List (String × List (Nat × RevMem)))
    (k : String) (x : Nat × RevMem) :
    ((addToGroups gs k x).map Prod.snd).flatten.Perm
      ((gs.map Prod.snd).flatten ++ [x]) := by
  induction gs with
  | nil => simp [addToGroups]
  | cons p rest ih =>
    obtain ⟨k0, l⟩ := p
    by_cases h : k0 = k
    · subst h
      simp only [addToGroups, eq_self_iff_true, if_true, List.map_cons,
        List.flatten_cons, List.append_assoc]
      exact List.Perm.append_left l List.perm_append_comm
    · simp only [addToGroups, if_neg h, List.map_cons, List.flatten_cons,
        List.append_assoc]
      exact List.Perm.append_left l ih

theorem foldl_grupos_flatten (l : List (Nat × RevMem))
    (gs : List (String × List (Nat × RevMem))) :
    ((l.foldl (fun gs p => addToGroups gs p.2.piso p) gs).map
      Prod.snd).flatten.Perm ((gs.map Prod.snd).flatten ++ l) := by
  induction l generalizing gs with
  | nil => simp
  | cons x l ih =>
    refine (ih _).trans ?_
    have h1 := (addToGroups_flatten gs x.2.piso x).append_right l
    simpa using h1

theorem foldl_grupos_inv (l : List (Nat × RevMem))
    (gs : List (String × List (Nat × RevMem))) (h : InvGrupos gs) :
    InvGrupos (l.foldl (fun gs p => addToGroups gs p.2.piso p) gs) := by
  induction l generalizing gs with
  | nil => exact h
  | cons x l ih => exact ih _ (addToGroups_inv h rfl)

theorem rpp_flatten_perm (revs : List RevMem) :
    ((revisiones_por_piso revs).map Prod.snd).flatten.Perm revs.enum := by
  have h := foldl_grupos_flatten revs.enum []
  simpa [revisiones_por_piso] using h

theorem rpp_inv (revs : List RevMem) : InvGrupos (revisiones_por_piso revs) :=
  foldl_grupos_inv _ _ ⟨List.nodup_nil, by simp⟩

theorem countP_enum_idx (l : List RevMem) (i : Nat) :
    l.enum.countP (fun x => x.1 == i) = if i < l.length then 1 else 0 := by
  have h1 : l.enum.countP (fun x => x.1 == i) =
      (l.enum.map Prod.fst).countP (fun j => j == i) := by
    rw [List.countP_map]
    rfl
  rw [h1, List.enum_map_fst]
  have h2 : (List.range l.length).countP (fun j => j == i) =
      List.count i (List.range l.length) := rfl
  rw [h2]
  by_cases h : i < l.length
  · rw [if_pos h]
    exact List.count_eq_one_of_mem (List.nodup_range _) (List.mem_range.mpr h)
  · rw [if_neg h]
    exact List.count_eq_zero_of_not_mem (fun hc => h (List.mem_range.mp hc))

/-! ## Claims -/

/-- C1 (amended): for every store whose in-memory form has photos
absent or as non-empty raw bytes and review dates as date values,
saving the whole store with `guardar_proyectos` and loading it back
with `cargar_proyectos` returns every record equal to the original in
every field, including photo bytes and review dates.  (The amendment
restricts photos to non-empty byte strings: an empty `b''` photo is
falsy, escapes encoding, and makes the save fail — see
`c1_counterexample`.) -/
theorem c1_roundtrip (data : StoreMem) (today : Date) (h : StoreWF data) :
    ∃ d, guardar_proyectos data = some d ∧
      cargar_proyectos (Except.ok d) today = data :=
  roundStore data today h

/-- C1 counterexample: a store holding a record whose profile photo is
the raw byte string `b''` cannot be saved and loaded back at all:
`guardar_proyectos` fails (returns `False`), so no saved document
loads back to the original store. -/
theorem c1_counterexample :
    ¬ ∃ d, guardar_proyectos tiendaFotoVacia = some d ∧
      cargar_proyectos (Except.ok d) fechaEjemplo = tiendaFotoVacia := by
  rintro ⟨d, hd, -⟩
  have hnone : guardar_proyectos tiendaFotoVacia = none := rfl
  rw [hnone] at hd
  exact Option.noConfusion hd

/-- C1 witness: a concrete one-user store with a profile photo, a
review photo and a review date survives the save/load round trip. -/
theorem c1_witness :
    StoreWF tiendaEjemplo ∧
    ∃ d, guardar_proyectos tiendaEjemplo = some d ∧
      cargar_proyectos (Except.ok d) fechaEjemplo = tiendaEjemplo :=
  ⟨by decide, c1_roundtrip tiendaEjemplo fechaEjemplo (by decide)⟩

/-- C2: on edit, the new record's history is the prior history plus
exactly one synthesized entry per checklist item that moved from
`'No cumple'` to `'Cumple'` (in item order); an item that makes that
transition contributes exactly one entry, and an edit with no
fail-to-pass transition appends nothing. -/
theorem c2_historial (today : Date) (anterior : RevMem)
    (form : FormularioRevision) (oc : String) (k : ItemChequeo) :
    ((actualizarRevision today anterior form oc).historial =
      anterior.historial ++
        (transiciones anterior form.cumple).map
          (fun j => entradaHistorial today j anterior oc)) ∧
    ((anterior.cumpleDe k = "No cumple" ∧ form.cumple k = "Cumple") →
      (transiciones anterior form.cumple).count k = 1) ∧
    ((∀ j, ¬(anterior.cumpleDe j = "No cumple" ∧ form.cumple j = "Cumple")) →
      (actualizarRevision today anterior form oc).historial =
        anterior.historial) := by
  refine ⟨rfl, ?_, ?_⟩
  · rintro ⟨h1, h2⟩
    unfold transiciones
    rw [List.count_filter (by simp [h1, h2])]
    cases k <;> decide
  · intro hno
    have hnil : transiciones anterior form.cumple = [] := by
      unfold transiciones
      rw [List.filter_eq_nil_iff]
      intro a _
      intro hcontra
      simp only [Bool.and_eq_true, beq_iff_eq] at hcontra
      exact hno a hcontra
    simp only [actualizarRevision, hnil, List.map_nil, List.append_nil]

/-- C2 witness: a concrete edit that turns the `longitudinal` item
from `'No cumple'` to `'Cumple'` counts that item exactly once among
the transitions, and the history is the old history plus the
synthesized entries. -/
theorem c2_witness :
    (transiciones revisionEjemplo formEjemplo.cumple).count
        ItemChequeo.longitudinal = 1 ∧
    (actualizarRevision fechaEjemplo revisionEjemplo formEjemplo
        "listo").historial =
      revisionEjemplo.historial ++
        (transiciones revisionEjemplo formEjemplo.cumple).map
          (fun j => entradaHistorial fechaEjemplo j revisionEjemplo "listo") :=
  ⟨(c2_historial fechaEjemplo revisionEjemplo formEjemplo "listo"
      ItemChequeo.longitudinal).2.1 (by decide),
   (c2_historial fechaEjemplo revisionEjemplo formEjemplo "listo"
      ItemChequeo.longitudinal).1⟩

/-- C3: for a valid index `i`, the delete action
(`revisiones_guardadas.pop(i)`) removes exactly the review at index
`i`: the list shrinks by one and equals the prefix before `i` followed
by the suffix after `i` (all other reviews keep their relative
order). -/
theorem c3_eliminar (revs : List RevMem) (i : Nat) (h : i < revs.length) :
    (eliminarRevision revs i).length = revs.length - 1 ∧
    eliminarRevision revs i = revs.take i ++ revs.drop (i + 1) := by
  constructor
  · rw [eliminarRevision, List.length_eraseIdx_of_lt h]
  · rw [eliminarRevision, List.eraseIdx_eq_take_drop_succ]

/-- C3 witness: deleting index 1 of a three-review list. -/
theorem c3_witness :
    (1 < revsEjemplo.length) ∧
    (eliminarRevision revsEjemplo 1).length = revsEjemplo.length - 1 ∧
    eliminarRevision revsEjemplo 1 =
      revsEjemplo.take 1 ++ revsEjemplo.drop 2 :=
  ⟨by decide, c3_eliminar revsEjemplo 1 (by decide)⟩

/-- C4 counterexample: the claim "for every pair of distinct passwords
`p`, `q`, `verify_password(q, hash_password(p))` returns false" is
false: SHA-256 maps the infinitely many passwords into finitely many
256-bit digests, so some two distinct passwords collide and the login
check accepts the wrong password. -/
theorem c4_counterexample :
    ¬ ∀ p q : String, p ≠ q →
      verify_password q (hash_password p) = false := by
  intro hall
  obtain ⟨p, q, hpq, hh⟩ := sha256_collision
  have h1 := hall p q hpq
  unfold verify_password at h1
  rw [← hh, beq_self_eq_true] at h1
  exact Bool.noConfusion h1

/-- C4 (amended): `verify_password(p, hash_password(p))` returns true
for every password, and `verify_password(q, hash_password(p))` returns
false whenever the two passwords' hashes differ (the equality of
SHA-256 hex digests is exactly what the login check compares). -/
theorem c4_verify (p q : String) :
    verify_password p (hash_password p) = true ∧
    (hash_password q ≠ hash_password p →
      verify_password q (hash_password p) = false) := by
  constructor
  · unfold verify_password
    exact beq_self_eq_true _
  · intro hne
    unfold verify_password
    exact beq_eq_false_iff_ne.mpr hne

/-- C4 witness: concrete accept of the right password and reject of a
wrong one with a different hash. -/
theorem c4_witness :
    hash_password "abc" ≠ hash_password "abd" ∧
    verify_password "abc" (hash_password "abc") = true ∧
    verify_password "abd" (hash_password "abc") = false :=
  ⟨by decide, (c4_verify "abc" "abd").1, (c4_verify "abc" "abd").2 (by decide)⟩

/-- C5: a registration attempt with a username already present in the
store is rejected: the submit handler hits the `usuario in proyectos`
branch, creates or overwrites nothing, and leaves the store
unchanged. -/
theorem c5_registro (proyectos : StoreMem)
    (usuario contrasena correo nombre_proyecto : String) (pisos : Nat)
    (tiene_sotanos : Bool) (num_sotanos : Nat)
    (foto_perfil : Option (List Nat))
    (h : existeUsuario proyectos usuario = true) :
    registro proyectos usuario contrasena correo nombre_proyecto pisos
      tiene_sotanos num_sotanos foto_perfil = proyectos := by
  unfold registro
  rw [h]
  simp

/-- C5 witness: re-registering the existing username `"ana"` leaves
the concrete store unchanged. -/
theorem c5_witness :
    existeUsuario tiendaEjemplo "ana" = true ∧
    registro tiendaEjemplo "ana" "secreta1" "ana@obra.co" "Torre" 3
      false 0 none = tiendaEjemplo :=
  ⟨by decide,
   c5_registro tiendaEjemplo "ana" "secreta1" "ana@obra.co" "Torre" 3
     false 0 none (by decide)⟩

/-- C6: when loading the store fails (missing file, JSON parse error,
or any other exception inside `cargar_proyectos`), the function
returns the empty store rather than raising, and the result is
indistinguishable from loading an empty document — there is no
distinct error kind in the returned value. -/
theorem c6_error_vacio (e : String) (today : Date) :
    cargar_proyectos (Except.error e) today = [] ∧
    cargar_proyectos (Except.error e) today =
      cargar_proyectos (Except.ok []) today :=
  ⟨rfl, rfl⟩

/-- C7: for every in-memory store in the §3 representation (photos
absent or raw bytes, dates date values), the JSON document written by
a successful `guardar_proyectos` satisfies the persistence invariant:
every photo field (profile and review) is `null` or base64-decodable
text, and every review date is an ISO-8601 string. -/
theorem c7_invariante (data : StoreMem) (d : StoreDisk)
    (h1 : StoreWFDebil data) (h2 : guardar_proyectos data = some d) :
    StoreDiskOk d :=
  guardarStore_ok h1 h2

/-- C7 witness: the concrete example store saves successfully and its
document satisfies the invariant. -/
theorem c7_witness :
    StoreWFDebil tiendaEjemplo ∧
    ∃ d, guardar_proyectos tiendaEjemplo = some d ∧ StoreDiskOk d := by
  refine ⟨by decide, ?_⟩
  obtain ⟨d, hd⟩ : ∃ d, guardar_proyectos tiendaEjemplo = some d := ⟨_, rfl⟩
  exact ⟨d, hd, c7_invariante tiendaEjemplo d (by decide) hd⟩

/-- C8: the archive grouping partitions the reviews by floor label
(each enumerated review lands in the group of its own floor's string,
group keys are distinct, the groups' contents are exactly the
enumerated reviews, each index appearing exactly once), and the floor
selector offers the labels sorted lexicographically (`sorted(keys)`),
a permutation of the group keys with no other ordering guarantee. -/
theorem c8_agrupacion (revs : List RevMem) :
    (∀ g ∈ revisiones_por_piso revs, ∀ x ∈ g.2, x.2.piso = g.1) ∧
    ((revisiones_por_piso revs).map Prod.fst).Nodup ∧
    ((revisiones_por_piso revs).map Prod.snd).flatten.Perm revs.enum ∧
    (∀ i : Nat,
      ((revisiones_por_piso revs).map Prod.snd).flatten.countP
        (fun x => x.1 == i) = if i < revs.length then 1 else 0) ∧
    List.Sorted (fun a b : String => a ≤ b) (pisos_ordenados revs) ∧
    (pisos_ordenados revs).Perm
      ((revisiones_por_piso revs).map Prod.fst) := by
  refine ⟨(rpp_inv revs).2, (rpp_inv revs).1, rpp_flatten_perm revs,
    ?_, ?_, ?_⟩
  · intro i
    rw [(rpp_flatten_perm revs).countP_eq, countP_enum_idx]
  · exact List.sorted_mergeSort' _
  · exact List.mergeSort_perm _ _

/-- C8 witness: in a concrete three-review list (floors `"PB"`, `"1"`,
`"PB"`), the `"PB"` group holds exactly the two `"PB"` reviews, its
members' floor is `"PB"`, and index 0 appears exactly once across all
groups. -/
theorem c8_witness :
    (("PB", [(0, revisionEjemplo), (2, revisionEjemplo)]) ∈
      revisiones_por_piso revsEjemplo) ∧
    revisionEjemplo.piso = "PB" ∧
    ((revisiones_por_piso revsEjemplo).map Prod.snd).flatten.countP
      (fun x => x.1 == 0) = 1 := by
  have hg : ("PB", [(0, revisionEjemplo), (2, revisionEjemplo)]) ∈
      revisiones_por_piso revsEjemplo := by decide
  refine ⟨hg, ?_, ?_⟩
  · exact (c8_agrupacion revsEjemplo).1 _ hg (0, revisionEjemplo) (by decide)
  · have h4 := (c8_agrupacion revsEjemplo).2.2.2.1 0
    rw [if_pos (by decide)] at h4
    exact h4

/-- C9: `cargar_proyectos` degrades malformed fields instead of
discarding records: a non-ISO date string becomes `today`, a photo
string that fails base64 decoding becomes `None`, all other review
fields survive unchanged, and the loaded store keeps every username
and every review (same keys, same per-user review counts). -/
theorem c9_degradacion (rev : RevDisk) (today : Date) (s : String)
    (d : StoreDisk) :
    (parseIso rev.fecha_revision = none →
      (cargarRevision today rev).fecha_revision = today) ∧
    (rev.foto = PhotoD.str s → pyB64Decode s = none →
      (cargarRevision today rev).foto = PhotoM.null) ∧
    ((cargarRevision today rev).nombre = rev.nombre ∧
      (cargarRevision today rev).piso = rev.piso ∧
      (cargarRevision today rev).observaciones = rev.observaciones ∧
      (cargarRevision today rev).historial = rev.historial) ∧
    ((cargar_proyectos (Except.ok d) today).map Prod.fst =
      d.map Prod.fst) ∧
    ((cargar_proyectos (Except.ok d) today).map
        (fun p => p.2.revisiones.length) =
      d.map (fun p => p.2.revisiones.length)) := by
  refine ⟨?_, ?_, ⟨rfl, rfl, rfl, rfl⟩, ?_, ?_⟩
  · intro h
    simp [cargarRevision, h]
  · intro hf hdec
    have hs : s ≠ "" := by
      intro he
      subst he
      rw [pyB64Decode_empty] at hdec
      exact Option.noConfusion hdec
    simp [cargarRevision, cargarFoto, hf, hs, hdec]
  · simp [cargar_proyectos]
  · simp [cargar_proyectos, cargarInfo]

/-- C9 witness: a concrete stored review with date `"fecha mala"` and
photo `"AAA"` loads with today's date and a `None` photo. -/
theorem c9_witness :
    parseIso revDiskMala.fecha_revision = none ∧
    pyB64Decode "AAA" = none ∧
    (cargarRevision fechaEjemplo revDiskMala).fecha_revision =
      fechaEjemplo ∧
    (cargarRevision fechaEjemplo revDiskMala).foto = PhotoM.null :=
  ⟨by decide, by decide,
   (c9_degradacion revDiskMala fechaEjemplo "AAA" []).1 (by decide),
   (c9_degradacion revDiskMala fechaEjemplo "AAA" []).2.1 rfl (by decide)⟩

theorem extiende_refl (h : Heap) : ExtiendeHeap h h := List.take_length h

theorem extiende_iff {h0 h1 : Heap} :
    ExtiendeHeap h0 h1 ↔ ∃ t, h1 = h0 ++ t := by
  constructor
  · intro hx
    refine ⟨h1.drop h0.length, ?_⟩
    conv_lhs => rw [← List.take_append_drop h0.length h1]
    rw [hx]
  · rintro ⟨t, rfl⟩
    exact List.take_left h0 t

theorem extiende_trans {h0 h1 h2 : Heap} (a : ExtiendeHeap h0 h1)
    (b : ExtiendeHeap h1 h2) : ExtiendeHeap h0 h2 := by
  obtain ⟨t1, rfl⟩ := extiende_iff.mp a
  obtain ⟨t2, rfl⟩ := extiende_iff.mp b
  exact extiende_iff.mpr ⟨t1 ++ t2, by rw [List.append_assoc]⟩

theorem extiende_append (h : Heap) (o : PyObj) : ExtiendeHeap h (h ++ [o]) :=
  extiende_iff.mpr ⟨[o], rfl⟩

theorem extiende_len {h0 h1 : Heap} (hx : ExtiendeHeap h0 h1) :
    h0.length ≤ h1.length := by
  obtain ⟨t, rfl⟩ := extiende_iff.mp hx
  simp

theorem extiende_set {h0 h1 : Heap} (hx : ExtiendeHeap h0 h1) {a : Addr}
    (ha : h0.length ≤ a) (o : PyObj) : ExtiendeHeap h0 (h1.set a o) := by
  unfold ExtiendeHeap
  rw [List.set_take, hx, List.set_eq_of_length_le]
  calc h0.length = h0.length := rfl
    _ ≤ a := ha

theorem extiende_dictSet {h0 h1 : Heap} (hx : ExtiendeHeap h0 h1) {a : Addr}
    (ha : h0.length ≤ a) (k : String) (v : PyVal) :
    ExtiendeHeap h0 (dictSet h1 a k v) := by
  unfold dictSet
  split
  · exact extiende_set hx ha _
  · exact hx

theorem extiende_get? {h0 h1 : Heap} (hx : ExtiendeHeap h0 h1) {i : Nat}
    {o : PyObj} (hi : h0.get? i = some o) : h1.get? i = some o := by
  obtain ⟨t, rfl⟩ := extiende_iff.mp hx
  simp only [List.get?_eq_getElem?] at hi ⊢
  have hlt : i < h0.length := (List.getElem?_eq_some_iff.mp hi).1
  rw [List.getElem?_append_left hlt]
  exact hi

theorem pasoFecha_extiende {h0 h : Heap} (hx : ExtiendeHeap h0 h) {ca : Addr}
    (ha : h0.length ≤ ca) (campos : List (String × PyVal)) :
    ExtiendeHeap h0 (pasoFecha h ca campos) := by
  unfold pasoFecha
  split
  · exact extiende_dictSet hx ha _ _
  · exact hx

theorem pasoFotoRev_extiende {h0 h : Heap} (hx : ExtiendeHeap h0 h)
    {ca : Addr} (ha : h0.length ≤ ca) :
    ExtiendeHeap h0 (pasoFotoRev h ca) := by
  unfold pasoFotoRev
  split
  · split
    · split
      · exact extiende_dictSet hx ha _ _
      · exact extiende_dictSet hx ha _ _
    · exact hx
  · exact hx

theorem pasoFotoPerfil_extiende {h0 h : Heap} (hx : ExtiendeHeap h0 h)
    {ca : Addr} (ha : h0.length ≤ ca) :
    ExtiendeHeap h0 (pasoFotoPerfil h ca) := by
  unfold pasoFotoPerfil
  split
  · split
    · split
      · exact extiende_dictSet hx ha _ _
      · exact hx
    · exact hx
  · exact hx

theorem procesaRevHeap_extiende (h : Heap) (rv : PyVal) :
    ExtiendeHeap h (procesaRevHeap h rv).1 := by
  unfold procesaRevHeap
  split
  · split
    · refine pasoFotoRev_extiende ?_ ?_
      · exact pasoFecha_extiende (extiende_append h _) (Nat.le_refl _) _
      · exact Nat.le_refl _
    · exact extiende_refl h
  · exact extiende_refl h

theorem procesaRevsHeap_extiende (elems : List PyVal) (h : Heap) :
    ExtiendeHeap h (procesaRevsHeap h elems).1 := by
  induction elems generalizing h with
  | nil => exact extiende_refl h
  | cons v rest ih =>
    have h1 := procesaRevHeap_extiende h v
    rcases hp : procesaRevHeap h v with ⟨ha, r⟩
    rw [hp] at h1
    rcases r with - | pv
    · simp only [procesaRevsHeap, hp]
      exact h1
    · have h2 := ih ha
      rcases hq : procesaRevsHeap ha rest with ⟨hb, s⟩
      rw [hq] at h2
      rcases s with - | pvs
      · simp only [procesaRevsHeap, hp, hq]
        exact extiende_trans h1 h2
      · simp only [procesaRevsHeap, hp, hq]
        exact extiende_trans h1 h2

theorem pasoRevisiones_extiende {h0 h : Heap} (hx : ExtiendeHeap h0 h)
    {ca : Addr} (ha : h0.length ≤ ca) :
    ExtiendeHeap h0 (pasoRevisiones h ca).1 := by
  unfold pasoRevisiones
  rcases hdg : dictGet h ca "revisiones" with - | rv
  · simp only [hdg]
    exact hx
  · rcases rv with - | b | n | s | bb | d | la
    case vref =>
      simp only [hdg]
      rcases hla : h.get? la with - | obj
      · simp only [hla]
        exact hx
      · rcases obj with campos | elems
        · simp only [hla]
          exact hx
        · simp only [hla]
          have hrev := procesaRevsHeap_extiende elems h
          rcases hq : procesaRevsHeap h elems with ⟨h3, s⟩
          rw [hq] at hrev
          rcases s with - | pvs
          · simp only [hq]
            exact extiende_trans hx hrev
          · simp only [hq]
            exact extiende_dictSet
              (extiende_trans hx (extiende_trans hrev (extiende_append h3 _)))
              ha _ _
    all_goals simp only [hdg]
    all_goals exact hx

theorem procesaUserHeap_extiende (h : Heap) (uv : PyVal) :
    ExtiendeHeap h (procesaUserHeap h uv).1 := by
  rcases uv with - | b | n | s | bb | d | ua
  case vref =>
    rcases hget : h.get? ua with - | obj
    · simp only [procesaUserHeap, hget]
      exact extiende_refl h
    · rcases obj with campos | elems
      · simp only [procesaUserHeap, hget]
        have e2 : ExtiendeHeap h
            (pasoFotoPerfil (h ++ [PyObj.odict campos]) h.length) :=
          pasoFotoPerfil_extiende (extiende_append h _) (Nat.le_refl _)
        have e3 := pasoRevisiones_extiende e2 (Nat.le_refl h.length)
        rcases hq : pasoRevisiones
            (pasoFotoPerfil (h ++ [PyObj.odict campos]) h.length)
            h.length with ⟨h3, b3⟩
        rw [hq] at e3
        rcases b3 with - | -
        · simp only [hq]
          exact e3
        · simp only [hq]
          exact e3
      · simp only [procesaUserHeap, hget]
        exact extiende_refl h
  all_goals exact extiende_refl h

theorem procesaUsersHeap_extiende (entradas : List (String × PyVal))
    (h0 h : Heap) (dsAddr : Addr) (hx : ExtiendeHeap h0 h)
    (hds : h0.length ≤ dsAddr) :
    ExtiendeHeap h0 (procesaUsersHeap h dsAddr entradas).1 := by
  induction entradas generalizing h with
  | nil => exact hx
  | cons p rest ih =>
    obtain ⟨u, uv⟩ := p
    have h1 := procesaUserHeap_extiende h uv
    rcases hp : procesaUserHeap h uv with ⟨ha, r⟩
    rw [hp] at h1
    rcases r with - | pv
    · simp only [procesaUsersHeap, hp]
      exact extiende_trans hx h1
    · simp only [procesaUsersHeap, hp]
      exact ih _ (extiende_dictSet (extiende_trans hx h1) hds u pv)

theorem guardar_heap_extiende (h : Heap) (root : Addr) :
    ExtiendeHeap h (guardar_proyectos_heap h root).1 := by
  rcases hget : h.get? root with - | obj
  · simp only [guardar_proyectos_heap, hget]
    exact extiende_refl h
  · rcases obj with entradas | elems
    · simp only [guardar_proyectos_heap, hget]
      have e := procesaUsersHeap_extiende entradas h
        (h ++ [PyObj.odict []]) h.length (extiende_append h _)
        (Nat.le_refl _)
      rcases hq : procesaUsersHeap (h ++ [PyObj.odict []]) h.length
          entradas with ⟨h2, b2⟩
      rw [hq] at e
      rcases b2 with - | -
      · simp only [hq]
        exact e
      · simp only [hq]
        exact e
    · simp only [guardar_proyectos_heap, hget]
      exact extiende_refl h

/-- C10: `guardar_proyectos` leaves its argument unchanged: every heap
cell that exists before the call — the store dict, each user record
with its raw-bytes photos and date-valued review dates, each review
dict and history list — holds exactly the same contents after the
call, because serialization writes only to the fresh copies it
allocates (`info.copy()` / `rev.copy()` followed by assignments to the
copies). -/
theorem c10_sin_mutacion (h : Heap) (root : Addr) :
    ((guardar_proyectos_heap h root).1.take h.length = h) ∧
    ∀ (i : Nat) (o : PyObj), h.get? i = some o →
      (guardar_proyectos_heap h root).1.get? i = some o := by
  refine ⟨guardar_heap_extiende h root, ?_⟩
  intro i o hi
  exact extiende_get? (guardar_heap_extiende h root) hi

/-- C10 witness: in the concrete heap, the user record (with its raw
`bytes` photo and its `date` review date) is bitwise intact after the
save. -/
theorem c10_witness :
    heapEjemplo.get? 1 = some usuarioHeapEjemplo ∧
    (guardar_proyectos_heap heapEjemplo 0).1.get? 1 =
      some usuarioHeapEjemplo :=
  ⟨rfl, (c10_sin_mutacion heapEjemplo 0).2 1 usuarioHeapEjemplo rfl⟩
